import Mathlib

/-!
Verification development for the BananaBrush client (React/TypeScript).

The definitions below are a shallow embedding of the source files
`App.tsx`, `components/ImageEditor.tsx`, `components/ImageCropper.tsx`
and `types.ts`.  Geometry is modelled over exact rationals; rotation
angles are represented by their cosine/sine pairs; React `useState`
updates are modelled as taking effect only after the event handler that
issued them returns, while `useRef` cells update synchronously.
-/

/-- RGBA pixel with byte channels, as stored in an `ImageData` buffer. -/
structure RGBA where
  r : Nat
  g : Nat
  b : Nat
  a : Nat
deriving Repr, DecidableEq

/-- The four expansion counters held in the `expandSteps` React state of `App`. -/
structure Steps where
  top : Nat
  right : Nat
  bottom : Nat
  left : Nat
deriving Repr, DecidableEq

/-- The initial `expandSteps` value set by `handleToolSelect('expand')`. -/
def Steps.zero : Steps := ⟨0, 0, 0, 0⟩

/-- `Object.values(expandSteps).reduce((sum, val) => sum + val, 0)`. -/
def Steps.total (s : Steps) : Nat := s.top + s.right + s.bottom + s.left

/-- The eight direction strings accepted by `handleExpandClick`. -/
inductive Direction
  | top
  | right
  | bottom
  | left
  | topLeft
  | topRight
  | bottomLeft
  | bottomRight
deriving Repr, DecidableEq

/-- `direction.includes('top')` on the direction string. -/
def Direction.hasTop : Direction → Bool
  | .top | .topLeft | .topRight => true
  | _ => false

/-- `direction.includes('bottom')` on the direction string. -/
def Direction.hasBottom : Direction → Bool
  | .bottom | .bottomLeft | .bottomRight => true
  | _ => false

/-- `direction.includes('left')` on the direction string. -/
def Direction.hasLeft : Direction → Bool
  | .left | .topLeft | .bottomLeft => true
  | _ => false

/-- `direction.includes('right')` on the direction string. -/
def Direction.hasRight : Direction → Bool
  | .right | .topRight | .bottomRight => true
  | _ => false

/-- `MAX_EXPANSION_CLICKS` in `App`. -/
def MAX_EXPANSION_CLICKS : Nat := 6

/-- The slice of `App` state touched by the expansion buttons: the counters,
the undo history and the visible error slot. -/
structure ExpandState where
  steps : Steps
  history : List Steps
  error : Option String
deriving Repr, DecidableEq

/-- The body of the `setExpandSteps` updater in `handleExpandClick`: each of the
four `includes` tests increments its counter. -/
def bumpSteps (d : Direction) (s : Steps) : Steps :=
  let s1 := if d.hasTop then { s with top := s.top + 1 } else s
  let s2 := if d.hasBottom then { s1 with bottom := s1.bottom + 1 } else s1
  let s3 := if d.hasLeft then { s2 with left := s2.left + 1 } else s2
  if d.hasRight then { s3 with right := s3.right + 1 } else s3

/-- `handleExpandClick` in `App`: when the summed counters have reached
`MAX_EXPANSION_CLICKS` the click is rejected with a transient message and no
state change; otherwise the pre-click counters are pushed onto the history and
the clicked direction's counters are incremented. -/
def handleExpandClick (d : Direction) (st : ExpandState) : ExpandState :=
  if MAX_EXPANSION_CLICKS ≤ st.steps.total then
    { st with error := some "You can expand up to 6 times per generation." }
  else
    { steps := bumpSteps d st.steps
      history := st.history ++ [st.steps]
      error := st.error }

/-- `handleUndoExpand` in `App`: pop the most recent history entry, if any, and
restore it as the current counters. -/
def handleUndoExpand (st : ExpandState) : ExpandState :=
  match st.history.getLast? with
  | none => st
  | some prev => { steps := prev, history := st.history.dropLast, error := st.error }

/-- A user interaction with the expansion panel. -/
inductive ExpandEvent
  | click (d : Direction)
  | undo
deriving Repr, DecidableEq

/-- Dispatch one expansion-panel event. -/
def stepExpand (st : ExpandState) (e : ExpandEvent) : ExpandState :=
  match e with
  | .click d => handleExpandClick d st
  | .undo => handleUndoExpand st

/-- Run a sequence of expansion-panel events from the state installed by
`handleToolSelect('expand')` (zero counters, empty history). -/
def runExpand (es : List ExpandEvent) : ExpandState :=
  es.foldl stepExpand { steps := Steps.zero, history := [], error := none }

/-- Invariant preserved by every expansion-panel event: the summed counters stay
at most `7`, and every history entry has sum at most `5`. -/
def ExpandInv (st : ExpandState) : Prop :=
  st.steps.total ≤ 7 ∧ ∀ h ∈ st.history, h.total ≤ 5

/-- Exhaustively undoing the whole history returns the counters to zero. -/
def UndoP (st : ExpandState) : Prop :=
  (handleUndoExpand^[st.history.length] st).steps = Steps.zero

/-! Definitions for `components/ImageEditor.tsx`: the freehand stroke canvas
and its binary-mask export. -/

/-- A point in canvas backing-buffer coordinates (`getCoords` output). -/
structure Point where
  x : ℚ
  y : ℚ
deriving Repr, DecidableEq

/-- One round-capped, round-joined line segment painted by `draw`, with the
`ctx.lineWidth` used for it. -/
structure Seg where
  p1 : Point
  p2 : Point
  lineWidth : ℚ
deriving Repr, DecidableEq

/-- A canvas pixel buffer, as read by `getImageData`: `width * height` RGBA
pixels in row-major order. -/
structure DrawCanvas where
  width : Nat
  height : Nat
  data : List RGBA
deriving Repr, DecidableEq

/-- The drawing-related component state of `ImageEditor`: the `isDrawing`
React state, the `lastPoint` ref and the strokes accumulated on the drawing
canvas.  React state updates issued during an event handler are applied only
after the handler returns; refs update synchronously. -/
structure EditorState where
  isDrawing : Bool
  lastPoint : Option Point
  strokes : List Seg
deriving Repr, DecidableEq

/-- The body of `draw`, parameterised by the value of the `isDrawing` closure
variable it reads (the render-time value, not any update pending from the same
event).  Returns the new `lastPoint` ref value and stroke list. -/
def drawHandler (isDrawingSnap : Bool) (ctxOk : Bool) (coords : Option Point)
    (brushSize scale : ℚ) (lastPoint : Option Point) (strokes : List Seg) :
    Option Point × List Seg :=
  if isDrawingSnap = false then (lastPoint, strokes)
  else
    match ctxOk, coords, lastPoint with
    | true, some c, some lp => (some c, strokes ++ [⟨lp, c, brushSize * scale⟩])
    | _, _, _ => (lastPoint, strokes)

/-- `startDrawing`: issues `setIsDrawing(true)` (a React state update, visible
only after the handler), stores the coordinates in the `lastPoint` ref, then
calls `draw(e)` directly — which therefore still reads the pre-event
`isDrawing` value `st.isDrawing`. -/
def startDrawing (st : EditorState) (ctxOk : Bool) (coords : Option Point)
    (brushSize scale : ℚ) : EditorState :=
  match coords with
  | none => { st with isDrawing := true }
  | some c =>
    let r := drawHandler st.isDrawing ctxOk (some c) brushSize scale (some c) st.strokes
    { isDrawing := true, lastPoint := r.1, strokes := r.2 }

/-- A `mousemove`/`touchmove` event dispatched to `draw` on its own (after any
re-render, so the snapshot is the stored `isDrawing`). -/
def drawEvent (st : EditorState) (ctxOk : Bool) (coords : Option Point)
    (brushSize scale : ℚ) : EditorState :=
  let r := drawHandler st.isDrawing ctxOk coords brushSize scale st.lastPoint st.strokes
  { st with lastPoint := r.1, strokes := r.2 }

/-- `stopDrawing`. -/
def stopDrawing (st : EditorState) : EditorState :=
  if st.isDrawing = false then st
  else { st with isDrawing := false, lastPoint := none }

/-- Squared Euclidean distance. -/
def sqDist (p q : Point) : ℚ := (p.x - q.x) ^ 2 + (p.y - q.y) ^ 2

/-- Clamp to the unit interval. -/
def clamp01 (t : ℚ) : ℚ := max 0 (min 1 t)

/-- Parameter of the point of a segment closest to `p` (0 when the segment is
degenerate, since rational division by zero yields zero). -/
def closestParam (s : Seg) (p : Point) : ℚ :=
  let dx := s.p2.x - s.p1.x
  let dy := s.p2.y - s.p1.y
  clamp01 (((p.x - s.p1.x) * dx + (p.y - s.p1.y) * dy) / (dx ^ 2 + dy ^ 2))

/-- Whether the round-capped stroke of a segment covers a point: the point is
within half the line width of the segment. -/
def segCovers (s : Seg) (p : Point) : Bool :=
  let t := closestParam s p
  let cx := s.p1.x + t * (s.p2.x - s.p1.x)
  let cy := s.p1.y + t * (s.p2.y - s.p1.y)
  decide (sqDist ⟨cx, cy⟩ p ≤ (s.lineWidth / 2) ^ 2)

/-- Alpha byte written by the stroke paint `rgba(255, 255, 255, 0.5)`. -/
def strokeAlphaByte : Nat := 128

/-- The pixel buffer of the drawing canvas after painting a list of strokes on
an initially transparent canvas. -/
def rasterizeStrokes (strokes : List Seg) (w h : Nat) : DrawCanvas :=
  ⟨w, h, (List.range (w * h)).map fun i =>
    if strokes.any fun s => segCovers s ⟨((i % w : Nat) : ℚ), ((i / w : Nat) : ℚ)⟩
    then ⟨255, 255, 255, strokeAlphaByte⟩ else ⟨0, 0, 0, 0⟩⟩

/-- The per-pixel rule of the `getMaskAsBase64` loop: source alpha above zero
becomes opaque white, anything else opaque black. -/
def binarizePixel (p : RGBA) : RGBA :=
  if 0 < p.a then ⟨255, 255, 255, 255⟩ else ⟨0, 0, 0, 255⟩

/-- `getMaskAsBase64` in `ImageEditor`.  The empty-string return is modelled as
`none`; a successful base64 export is modelled as `some` of the mask canvas it
encodes.  `canvas` is the drawing-canvas ref (`none` when unavailable),
`ctxOk`/`maskCtxOk` model the two `getContext('2d')` calls. -/
def getMaskAsBase64 (canvas : Option DrawCanvas) (ctxOk maskCtxOk : Bool) :
    Option DrawCanvas :=
  match canvas with
  | none => none
  | some c =>
    if ctxOk = false then none
    else
      let maskData := c.data.map binarizePixel
      if (c.data.any fun p => 0 < p.a) = false then none
      else if maskCtxOk = false then none
      else some ⟨c.width, c.height, maskData⟩

/-! Definitions for the `App` session state and its handlers. -/

/-- `AppState` from `types.ts`. -/
inductive AppState
  | HOME
  | IDLE
  | GENERATE_PROMPT
  | TOOL_SELECTION
  | EDITING
  | EXPANDING
  | LOADING
  | RESULT
deriving Repr, DecidableEq

/-- `Tool` from `types.ts`. -/
inductive Tool
  | magicFill
  | insert
  | expand
deriving Repr, DecidableEq

/-- The `originalImage` record of `App`: object URL, MIME type and natural
pixel dimensions. -/
structure OrigImage where
  url : String
  fileType : String
  width : Nat
  height : Nat
deriving Repr, DecidableEq

/-- The `insertImage` record of `App`. -/
structure InsertImage where
  url : String
  fileType : String
deriving Repr, DecidableEq

/-- The `insertImageTransform` record (`ImageTransform` in `App.tsx`). -/
structure ImageTransform where
  x : ℚ
  y : ℚ
  scale : ℚ
  rotation : ℚ
  opacity : ℚ
  perspective : ℚ
  rotateX : ℚ
  rotateY : ℚ
deriving Repr, DecidableEq

/-- The slice of `App` component state relevant to the verified claims.  The
brush mask drawn in the editor is held here as `editorCanvas` so that
`clearMask` calls made through the editor ref can be modelled. -/
structure Session where
  appState : AppState
  originalImage : Option OrigImage
  uncroppedOriginalImage : Option OrigImage
  insertImage : Option InsertImage
  resultData : Option String
  prompt : String
  error : Option String
  isSelectionDone : Bool
  finalSelection : Option DrawCanvas
  loadingMessage : String
  systemContext : String
  tool : Option Tool
  isPlacingImage : Bool
  insertImageTransform : ImageTransform
  expandSteps : Steps
  expandHistory : List Steps
  isCropping : Bool
  editorCanvas : Option DrawCanvas
deriving Repr, DecidableEq

/-- `handleExpandSubmit` in `App`, parameterised by the outcome of the
external `expandImage` call and by the availability of the 2D context of the
scratch canvas (the raster it builds is modelled by `expandComposite` below).
On failure the catch block stores the message and returns to `EXPANDING`. -/
def handleExpandSubmit (backend : Except String String) (ctxOk : Bool)
    (s : Session) : Session :=
  if s.originalImage = none then s
  else
    let s1 := { s with error := none, appState := AppState.LOADING
                     , loadingMessage := "Expanding your canvas..." }
    if ctxOk = false then
      { s1 with error := some "Could not create canvas for expansion"
              , appState := AppState.EXPANDING }
    else
      match backend with
      | .ok url => { s1 with resultData := some url, appState := AppState.RESULT }
      | .error msg => { s1 with error := some msg, appState := AppState.EXPANDING }

/-- `handleEditSubmit` in `App`, parameterised by the outcome of the external
call (`editImageWithText` or `blendImages`) and by the availability of the
composite and mask canvas contexts used on the insert path.  On failure the
catch block stores the message and returns to `EDITING`. -/
def handleEditSubmit (backend : Except String String) (ctxOk maskCtxOk : Bool)
    (s : Session) : Session :=
  if s.originalImage = none ∨ s.tool = none then
    { s with error := some "An unexpected error occurred. Please start over." }
  else if s.tool ≠ some Tool.insert ∧ s.tool ≠ some Tool.magicFill then
    { s with error := some "Invalid tool for this action." }
  else if s.finalSelection = none ∧ s.tool ≠ some Tool.insert then
    { s with error := some "Selection is missing. Please select an area on the image."
           , appState := AppState.EDITING }
  else
    let s1 := { s with error := none, appState := AppState.LOADING }
    if s.tool = some Tool.magicFill then
      if s.prompt = "" then
        { s1 with error := some "Please enter a text prompt to describe your edit."
                , appState := AppState.EDITING }
      else if s.finalSelection = none then
        { s1 with error := some "Selection is missing. Please select an area on the image."
                , appState := AppState.EDITING }
      else
        let s2 := { s1 with loadingMessage := "Applying AI magic..." }
        match backend with
        | .ok url => { s2 with resultData := some url, appState := AppState.RESULT }
        | .error msg => { s2 with error := some msg, appState := AppState.EDITING }
    else
      if s.insertImage = none then
        { s1 with error := some "Please upload an image to insert."
                , appState := AppState.EDITING }
      else
        let s2 := { s1 with loadingMessage := "Blending image..." }
        if ctxOk = false then
          { s2 with error := some "Could not create canvas context"
                  , appState := AppState.EDITING }
        else if maskCtxOk = false then
          { s2 with error := some "Could not create mask canvas context"
                  , appState := AppState.EDITING }
        else
          match backend with
          | .ok url => { s2 with resultData := some url, appState := AppState.RESULT }
          | .error msg => { s2 with error := some msg, appState := AppState.EDITING }

/-- The Next Step button of the mask-selection panel: store the exported
selection when it is non-empty, otherwise show the validation error. -/
def nextStepClick (selection : Option DrawCanvas) (s : Session) : Session :=
  match selection with
  | some sel => { s with finalSelection := some sel, isSelectionDone := true, error := none }
  | none => { s with error := some "Please select an area before proceeding." }

/-- `clearMask` through the editor ref: `clearRect` leaves every pixel of the
drawing canvas fully transparent. -/
def clearMaskCanvas (c : Option DrawCanvas) : Option DrawCanvas :=
  match c with
  | none => none
  | some dc => some ⟨dc.width, dc.height, dc.data.map fun _ => ⟨0, 0, 0, 0⟩⟩

/-- `handleStartCropping` in `App`: snapshot the working image as the pre-crop
original only when no snapshot exists yet, then open the crop overlay. -/
def handleStartCropping (s : Session) : Session :=
  let s1 :=
    if s.uncroppedOriginalImage = none ∧ s.originalImage ≠ none then
      { s with uncroppedOriginalImage := s.originalImage }
    else s
  { s1 with isCropping := true }

/-- `handleRestoreOriginal` in `App`. -/
def handleRestoreOriginal (s : Session) : Session :=
  match s.uncroppedOriginalImage with
  | some u =>
    { s with originalImage := some u
           , uncroppedOriginalImage := none
           , isSelectionDone := false
           , finalSelection := none
           , editorCanvas := clearMaskCanvas s.editorCanvas
           , isCropping := false }
  | none => { s with isCropping := false }

/-- `handleSaveCrop` in `App`, parameterised by the success of re-fetching the
cropped data URL and by the resulting image record. -/
def handleSaveCrop (fetchOk : Bool) (cropped : OrigImage) (s : Session) : Session :=
  if fetchOk then
    { s with originalImage := some cropped
           , isSelectionDone := false
           , finalSelection := none
           , editorCanvas := clearMaskCanvas s.editorCanvas
           , isCropping := false }
  else
    { s with error := some "Could not apply crop. Please try again."
           , isCropping := false }

/-- One crop cycle: open the crop overlay, then apply a crop producing `img`. -/
def cropCycle (s : Session) (img : OrigImage) : Session :=
  handleSaveCrop true img (handleStartCropping s)

/-! Definitions for `components/ImageCropper.tsx`. -/

/-- The `crop` state of `ImageCropper`, in display pixels. -/
structure CropRect where
  x : ℚ
  y : ℚ
  width : ℚ
  height : ℚ
deriving Repr, DecidableEq

/-- `handleDragEnd` in `ImageCropper`: when a drag is active, finish it and
discard the selection if either dimension is below 5 display pixels.  Returns
the new `(isDragging, crop)` pair. -/
def handleCropDragEnd (isDragging : Bool) (crop : Option CropRect) :
    Bool × Option CropRect :=
  if isDragging = false then (isDragging, crop)
  else
    (false,
      match crop with
      | some c => if c.width < 5 ∨ c.height < 5 then none else some c
      | none => none)

/-- Truncation of a rational toward zero. -/
def truncTowardZero (q : ℚ) : Int := if 0 ≤ q then ⌊q⌋ else -⌊-q⌋

/-- The WebIDL conversion to `unsigned long` performed when a JS number is
assigned to `canvas.width`/`canvas.height`: truncate toward zero, then reduce
modulo 2^32. -/
def toUnsignedLong (q : ℚ) : Nat := ((truncTowardZero q).emod (2 ^ 32)).toNat

/-- `handleApplyCrop` in `ImageCropper`, returning the dimensions of the
produced image (the `canvas.width`/`canvas.height` assignments).  `naturalW/H`
are the image's native dimensions; `clientW/H` its displayed dimensions. -/
def handleApplyCrop (naturalW naturalH clientW clientH : ℚ)
    (crop : Option CropRect) : Option (Nat × Nat) :=
  match crop with
  | none => none
  | some c =>
    if c.width = 0 ∨ c.height = 0 then none
    else
      let scaleX := naturalW / clientW
      let scaleY := naturalH / clientH
      some (toUnsignedLong (c.width * scaleX), toUnsignedLong (c.height * scaleY))

/-! Definitions for the insert-placement transform (`buildTransformMatrix` in
`handleEditSubmit`).  `DOMMatrix` operations are modelled as affine maps of
3-space over the rationals; rotation angles are represented by their
cosine/sine pairs. -/

/-- A 3-vector. -/
structure Vec3 where
  x : ℚ
  y : ℚ
  z : ℚ
deriving Repr, DecidableEq

/-- A 3x3 matrix, row-major (`aij` is row `i`, column `j`). -/
structure Mat3 where
  a11 : ℚ
  a12 : ℚ
  a13 : ℚ
  a21 : ℚ
  a22 : ℚ
  a23 : ℚ
  a31 : ℚ
  a32 : ℚ
  a33 : ℚ
deriving Repr, DecidableEq

/-- The identity matrix. -/
def Mat3.idm : Mat3 := ⟨1, 0, 0, 0, 1, 0, 0, 0, 1⟩

/-- Matrix product. -/
def Mat3.mul (A B : Mat3) : Mat3 :=
  ⟨A.a11 * B.a11 + A.a12 * B.a21 + A.a13 * B.a31,
   A.a11 * B.a12 + A.a12 * B.a22 + A.a13 * B.a32,
   A.a11 * B.a13 + A.a12 * B.a23 + A.a13 * B.a33,
   A.a21 * B.a11 + A.a22 * B.a21 + A.a23 * B.a31,
   A.a21 * B.a12 + A.a22 * B.a22 + A.a23 * B.a32,
   A.a21 * B.a13 + A.a22 * B.a23 + A.a23 * B.a33,
   A.a31 * B.a11 + A.a32 * B.a21 + A.a33 * B.a31,
   A.a31 * B.a12 + A.a32 * B.a22 + A.a33 * B.a32,
   A.a31 * B.a13 + A.a32 * B.a23 + A.a33 * B.a33⟩

/-- Matrix-vector product. -/
def Mat3.mulVec (A : Mat3) (v : Vec3) : Vec3 :=
  ⟨A.a11 * v.x + A.a12 * v.y + A.a13 * v.z,
   A.a21 * v.x + A.a22 * v.y + A.a23 * v.z,
   A.a31 * v.x + A.a32 * v.y + A.a33 * v.z⟩

/-- An affine map of 3-space: `v ↦ lin v + tr` (the relevant fragment of a
`DOMMatrix`). -/
structure Affine3 where
  lin : Mat3
  tr : Vec3
deriving Repr, DecidableEq

/-- The identity transform (`new DOMMatrix()`). -/
def Affine3.idt : Affine3 := ⟨Mat3.idm, ⟨0, 0, 0⟩⟩

/-- Post-multiplication, the `*Self` composition order of `DOMMatrix`: the new
transform is applied to the input point before the current one. -/
def Affine3.post (M N : Affine3) : Affine3 :=
  ⟨M.lin.mul N.lin,
   ⟨(M.lin.mulVec N.tr).x + M.tr.x,
    (M.lin.mulVec N.tr).y + M.tr.y,
    (M.lin.mulVec N.tr).z + M.tr.z⟩⟩

/-- `translateSelf(tx, ty, tz)`. -/
def Affine3.translateSelf (M : Affine3) (tx ty tz : ℚ) : Affine3 :=
  M.post ⟨Mat3.idm, ⟨tx, ty, tz⟩⟩

/-- Rotation about the x-axis with cosine `c` and sine `s`. -/
def rotAxisX (c s : ℚ) : Affine3 := ⟨⟨1, 0, 0, 0, c, -s, 0, s, c⟩, ⟨0, 0, 0⟩⟩

/-- Rotation about the y-axis. -/
def rotAxisY (c s : ℚ) : Affine3 := ⟨⟨c, 0, s, 0, 1, 0, -s, 0, c⟩, ⟨0, 0, 0⟩⟩

/-- Rotation about the z-axis. -/
def rotAxisZ (c s : ℚ) : Affine3 := ⟨⟨c, -s, 0, s, c, 0, 0, 0, 1⟩, ⟨0, 0, 0⟩⟩

/-- `rotateSelf(rotX, rotY, rotZ)`: per the Geometry Interfaces spec, the
z-rotation is post-multiplied first, then the y-rotation, then the
x-rotation. -/
def Affine3.rotateSelf (M : Affine3) (cx sx cy sy cz sz : ℚ) : Affine3 :=
  ((M.post (rotAxisZ cz sz)).post (rotAxisY cy sy)).post (rotAxisX cx sx)

/-- `scaleSelf(s)`: a missing `scaleY` defaults to `scaleX`, and `scaleZ`
defaults to 1. -/
def Affine3.scaleSelf (M : Affine3) (s : ℚ) : Affine3 :=
  M.post ⟨⟨s, 0, 0, 0, s, 0, 0, 0, 1⟩, ⟨0, 0, 0⟩⟩

/-- `buildTransformMatrix(canvas)` in `handleEditSubmit`, with rotation angles
given by cosine/sine pairs: `cx, sx` for `rotateX`, `cy, sy` for `rotateY`,
`cz, sz` for `rotation`.  `imgW, imgH` are the inserted object's natural
dimensions and `cw, ch` the canvas dimensions. -/
def buildTransformMatrix (t : ImageTransform) (cx sx cy sy cz sz : ℚ)
    (imgW imgH cw ch : ℚ) : Affine3 :=
  ((((Affine3.idt.translateSelf ((t.x / 100) * cw) ((t.y / 100) * ch) 0
      ).rotateSelf cx sx cy sy cz sz
     ).scaleSelf (t.scale / 100)
    ).translateSelf (-(imgW / 2)) (-(imgH / 2)) 0)

/-- A 2D affine map in `DOMMatrix` 2D naming: maps `(x, y)` to
`(a x + c y + e, b x + d y + f)`. -/
structure Affine2 where
  a : ℚ
  b : ℚ
  c : ℚ
  d : ℚ
  e : ℚ
  f : ℚ
deriving Repr, DecidableEq

/-- `CanvasRenderingContext2D.setTransform(DOMMatrix)`: the `DOMMatrix2DInit`
conversion reads only `m11 m12 m21 m22 m41 m42`, silently dropping the 3D
components of the matrix. -/
def flatten2D (M : Affine3) : Affine2 :=
  ⟨M.lin.a11, M.lin.a21, M.lin.a12, M.lin.a22, M.tr.x, M.tr.y⟩

/-- Apply a 2D affine map to a point. -/
def Affine2.apply (T : Affine2) (p : ℚ × ℚ) : ℚ × ℚ :=
  (T.a * p.1 + T.c * p.2 + T.e, T.b * p.1 + T.d * p.2 + T.f)

/-- Determinant of the linear part. -/
def Affine2.det (T : Affine2) : ℚ := T.a * T.d - T.b * T.c

/-- The inverse affine map (meaningful when the determinant is nonzero). -/
def Affine2.inv (T : Affine2) : Affine2 :=
  ⟨T.d / T.det, -T.b / T.det, -T.c / T.det, T.a / T.det,
   (T.c * T.f - T.d * T.e) / T.det, (T.b * T.e - T.a * T.f) / T.det⟩

/-- Membership in the axis-aligned rectangle with corners `(0,0)` and `(w,h)`. -/
def inRect (w h : ℚ) (p : ℚ × ℚ) : Prop :=
  0 ≤ p.1 ∧ p.1 ≤ w ∧ 0 ≤ p.2 ∧ p.2 ≤ h

instance (w h : ℚ) (p : ℚ × ℚ) : Decidable (inRect w h p) := by
  unfold inRect
  infer_instance

/-- The rectangle as a set. -/
def rectSet (w h : ℚ) : Set (ℚ × ℚ) := { p | inRect w h p }

/-- The 2D transform actually installed by `ctx.setTransform(
buildTransformMatrix(canvas))`. -/
def placementMap (t : ImageTransform) (cx sx cy sy cz sz imgW imgH cw ch : ℚ) :
    Affine2 :=
  flatten2D (buildTransformMatrix t cx sx cy sy cz sz imgW imgH cw ch)

/-- White region of the placement mask: `maskCtx.fillRect(0, 0, imgWidth,
imgHeight)` through the installed transform, clipped to the mask canvas. -/
def maskWhiteRegion (t : ImageTransform) (cx sx cy sy cz sz imgW imgH cw ch : ℚ) :
    Set (ℚ × ℚ) :=
  { q | inRect cw ch q ∧ ∃ p, inRect imgW imgH p ∧
      (placementMap t cx sx cy sy cz sz imgW imgH cw ch).apply p = q }

/-- Footprint of the inserted object in the visible composite:
`ctx.drawImage(insertImg, 0, 0, imgWidth, imgHeight)` through the installed
transform, clipped to the composite canvas. -/
def compositeObjectFootprint (t : ImageTransform)
    (cx sx cy sy cz sz imgW imgH cw ch : ℚ) : Set (ℚ × ℚ) :=
  { q | inRect cw ch q ∧ ∃ p, inRect imgW imgH p ∧
      (placementMap t cx sx cy sy cz sz imgW imgH cw ch).apply p = q }

/-! Definitions for the expansion composite built in `handleExpandSubmit`. -/

/-- An opaque RGB color. -/
structure Color3 where
  r : Nat
  g : Nat
  b : Nat
deriving Repr, DecidableEq

/-- The sentinel fill `#808080`. -/
def sentinelGray : Color3 := ⟨128, 128, 128⟩

/-- A decoded raster image: natural dimensions and a pixel function. -/
structure Img where
  width : Nat
  height : Nat
  pix : Nat → Nat → Color3

/-- A canvas raster: `none` is an unpainted (transparent) pixel. -/
structure PixCanvas where
  width : Nat
  height : Nat
  pix : Nat → Nat → Option Color3

/-- `document.createElement('canvas')` with the given dimensions: every pixel
transparent. -/
def newCanvas (w h : Nat) : PixCanvas := ⟨w, h, fun _ _ => none⟩

/-- `ctx.fillRect(x, y, w, h)` with an opaque fill color (no transform set). -/
def fillRectC (c : PixCanvas) (col : Color3) (x y w h : Nat) : PixCanvas :=
  ⟨c.width, c.height, fun px py =>
    if x ≤ px ∧ px < x + w ∧ y ≤ py ∧ py < y + h ∧ px < c.width ∧ py < c.height
    then some col else c.pix px py⟩

/-- `ctx.drawImage(img, dx, dy, dw, dh)` in the case used by
`handleExpandSubmit`, where `(dw, dh)` equal the image's natural dimensions,
so the draw is pixel-for-pixel. -/
def drawImageNative (c : PixCanvas) (img : Img) (dx dy : Nat) : PixCanvas :=
  ⟨c.width, c.height, fun px py =>
    if dx ≤ px ∧ px < dx + img.width ∧ dy ≤ py ∧ py < dy + img.height
       ∧ px < c.width ∧ py < c.height
    then some (img.pix (px - dx) (py - dy)) else c.pix px py⟩

/-- The composite canvas built by `handleExpandSubmit` before the external
call: a `finalWidth x finalHeight` canvas filled with the sentinel gray, with
the original image drawn at `(left*step, top*step)` at its native size. -/
def expandComposite (orig : Img) (steps : Steps) (stepSize : Nat) : PixCanvas :=
  let finalW := orig.width + (steps.left + steps.right) * stepSize
  let finalH := orig.height + (steps.top + steps.bottom) * stepSize
  let c0 := newCanvas finalW finalH
  let c1 := fillRectC c0 sentinelGray 0 0 finalW finalH
  drawImageNative c1 orig (steps.left * stepSize) (steps.top * stepSize)

/-- A concrete session used by witnesses: tool selection reached with an
800 x 600 image loaded. -/
def baseSession : Session :=
  { appState := AppState.TOOL_SELECTION
    originalImage := some ⟨"img", "image/png", 800, 600⟩
    uncroppedOriginalImage := none
    insertImage := none
    resultData := none
    prompt := ""
    error := none
    isSelectionDone := false
    finalSelection := none
    loadingMessage := ""
    systemContext := ""
    tool := none
    isPlacingImage := false
    insertImageTransform := ⟨50, 50, 50, 0, 100, 1000, 0, 0⟩
    expandSteps := Steps.zero
    expandHistory := []
    isCropping := false
    editorCanvas := none }

/-- A concrete session mid-Expand, used by the C7 witness. -/
def expandingSession : Session :=
  { baseSession with appState := AppState.EXPANDING
                   , tool := some Tool.expand
                   , prompt := "a sunset"
                   , expandSteps := ⟨1, 0, 0, 0⟩
                   , expandHistory := [Steps.zero] }

/-- A concrete session mid-Magic-Fill, used by the C7 witness. -/
def magicFillSession : Session :=
  { baseSession with appState := AppState.EDITING
                   , tool := some Tool.magicFill
                   , prompt := "a tiger"
                   , finalSelection := some ⟨1, 1, [⟨255, 255, 255, 255⟩]⟩ }

/-- A concrete session mid-Insert, used by the C7 witness. -/
def insertSession : Session :=
  { baseSession with appState := AppState.EDITING
                   , tool := some Tool.insert
                   , insertImage := some ⟨"obj", "image/png"⟩ }

/-- A concrete session holding a pre-crop snapshot, for the C9 witness. -/
def snapshotSession : Session :=
  { baseSession with appState := AppState.EDITING
                   , tool := some Tool.magicFill
                   , originalImage := some ⟨"crop1", "image/png", 400, 300⟩
                   , uncroppedOriginalImage := some ⟨"img", "image/png", 800, 600⟩ }

/-! Helper lemmas for the expansion invariants. -/

theorem bumpSteps_total_le (d : Direction) (s : Steps) :
    (bumpSteps d s).total ≤ s.total + 2 := by
  cases d <;>
    simp [bumpSteps, Steps.total, Direction.hasTop, Direction.hasBottom,
      Direction.hasLeft, Direction.hasRight] <;> omega

theorem mem_of_getLast?_eq_some {α : Type} {l : List α} {a : α}
    (h : l.getLast? = some a) : a ∈ l := by
  obtain ⟨hne, heq⟩ :=
    List.mem_getLast?_eq_getLast (l := l) (x := a) (by simp [Option.mem_def, h])
  exact heq ▸ List.getLast_mem hne

theorem expandInv_step (st : ExpandState) (e : ExpandEvent)
    (hinv : ExpandInv st) : ExpandInv (stepExpand st e) := by
  obtain ⟨h7, hhist⟩ := hinv
  cases e with
  | click d =>
    by_cases hle : MAX_EXPANSION_CLICKS ≤ st.steps.total
    · simp only [stepExpand, handleExpandClick, if_pos hle]
      exact ⟨h7, hhist⟩
    · simp only [stepExpand, handleExpandClick, if_neg hle]
      simp only [MAX_EXPANSION_CLICKS, not_le] at hle
      constructor
      · show (bumpSteps d st.steps).total ≤ 7
        have hb := bumpSteps_total_le d st.steps
        omega
      · show ∀ h ∈ st.history ++ [st.steps], h.total ≤ 5
        intro h hh
        simp only [List.mem_append, List.mem_singleton] at hh
        rcases hh with hh | hh
        · exact hhist h hh
        · subst hh
          omega
  | undo =>
    cases hl : st.history.getLast? with
    | none =>
      simp only [stepExpand, handleUndoExpand, hl]
      exact ⟨h7, hhist⟩
    | some prev =>
      simp only [stepExpand, handleUndoExpand, hl]
      constructor
      · show prev.total ≤ 7
        have := hhist prev (mem_of_getLast?_eq_some hl)
        omega
      · show ∀ h ∈ st.history.dropLast, h.total ≤ 5
        intro h hh
        exact hhist h (List.dropLast_subset _ hh)

theorem expandInv_foldl (es : List ExpandEvent) (st : ExpandState)
    (hinv : ExpandInv st) : ExpandInv (es.foldl stepExpand st) := by
  induction es generalizing st with
  | nil => exact hinv
  | cons e es ih => exact ih _ (expandInv_step st e hinv)

theorem expandInv_run (es : List ExpandEvent) : ExpandInv (runExpand es) := by
  refine expandInv_foldl es _ ⟨?_, ?_⟩
  · simp [Steps.total, Steps.zero]
  · intro h hh
    simp at hh

/-- C1 (counterexample): five single clicks followed by one diagonal click are
all accepted, yet leave the summed counters at `7`, exceeding the claimed bound
of `6`.  The claim "the sum of the four counters never exceeds 6" is therefore
false of `handleExpandClick`. -/
theorem expand_cap_counterexample :
    (runExpand (List.replicate 5 (ExpandEvent.click .right) ++
      [ExpandEvent.click .topLeft])).steps.total = 7 ∧
    ¬ (runExpand (List.replicate 5 (ExpandEvent.click .right) ++
      [ExpandEvent.click .topLeft])).steps.total ≤ 6 := by
  constructor
  · rfl
  · decide

/-- C1 (amended): across any sequence of expansion clicks and undos the sum of
the four counters never exceeds `7` (a diagonal click accepted at sum `5`
increments two counters, reaching `7`); a click arriving when the sum has
already reached `6` is rejected and leaves both the counters and the history
unchanged. -/
theorem expand_cap_amended (es : List ExpandEvent) (st : ExpandState)
    (d : Direction) (hcap : 6 ≤ st.steps.total) :
    (runExpand es).steps.total ≤ 7 ∧
    (handleExpandClick d st).steps = st.steps ∧
    (handleExpandClick d st).history = st.history := by
  refine ⟨(expandInv_run es).1, ?_, ?_⟩ <;>
    simp [handleExpandClick, MAX_EXPANSION_CLICKS, hcap]

/-- C1 (witness): the amended bound instantiated on the six-click run above and
a rejected seventh click. -/
theorem expand_cap_amended_witness :
    (runExpand (List.replicate 5 (ExpandEvent.click .right) ++
      [ExpandEvent.click .topLeft])).steps.total ≤ 7 ∧
    (handleExpandClick .top ⟨⟨2, 2, 2, 0⟩, [], none⟩).steps = ⟨2, 2, 2, 0⟩ ∧
    (handleExpandClick .top ⟨⟨2, 2, 2, 0⟩, [], none⟩).history = [] :=
  expand_cap_amended
    (List.replicate 5 (ExpandEvent.click .right) ++ [ExpandEvent.click .topLeft])
    ⟨⟨2, 2, 2, 0⟩, [], none⟩ .top (by decide)

/-! Undo semantics of the expansion panel (claim C8). -/

theorem handleUndoExpand_error (st : ExpandState) (e : Option String) :
    handleUndoExpand { st with error := e } = { handleUndoExpand st with error := e } := by
  obtain ⟨steps, hist, err⟩ := st
  simp only [handleUndoExpand]
  cases hist.getLast? <;> rfl

theorem handleUndoExpand_iterate_error (n : Nat) (st : ExpandState) (e : Option String) :
    handleUndoExpand^[n] { st with error := e } =
      { handleUndoExpand^[n] st with error := e } := by
  induction n generalizing st with
  | zero => rfl
  | succ n ih =>
    rw [Function.iterate_succ_apply, Function.iterate_succ_apply,
      handleUndoExpand_error, ih]

/-- An accepted click followed by an undo restores the full pre-click state. -/
theorem undo_click_accepted (d : Direction) (st : ExpandState)
    (hacc : st.steps.total < 6) :
    handleUndoExpand (handleExpandClick d st) = st := by
  have hne : ¬ MAX_EXPANSION_CLICKS ≤ st.steps.total := by
    simp only [MAX_EXPANSION_CLICKS]
    omega
  simp only [handleExpandClick, if_neg hne, handleUndoExpand,
    List.getLast?_concat, List.dropLast_concat]

theorem undoP_step (st : ExpandState) (e : ExpandEvent)
    (hp : UndoP st) : UndoP (stepExpand st e) := by
  cases e with
  | click d =>
    show UndoP (handleExpandClick d st)
    by_cases hle : MAX_EXPANSION_CLICKS ≤ st.steps.total
    · have hrej : handleExpandClick d st =
          { st with error := some "You can expand up to 6 times per generation." } := by
        simp only [handleExpandClick, if_pos hle]
      rw [hrej]
      unfold UndoP at hp ⊢
      rw [handleUndoExpand_iterate_error]
      exact hp
    · have hacc : st.steps.total < 6 := by
        simp only [MAX_EXPANSION_CLICKS, not_le] at hle
        omega
      unfold UndoP
      have hh : (handleExpandClick d st).history = st.history ++ [st.steps] := by
        simp only [handleExpandClick, if_neg hle]
      rw [hh, List.length_append, List.length_singleton,
        Function.iterate_succ_apply, undo_click_accepted d st hacc]
      exact hp
  | undo =>
    show UndoP (handleUndoExpand st)
    cases hl : st.history.getLast? with
    | none =>
      have : handleUndoExpand st = st := by
        simp only [handleUndoExpand, hl]
      rw [this]
      exact hp
    | some prev =>
      have hne : st.history ≠ [] := by
        intro hnil
        rw [hnil] at hl
        simp at hl
      have hu : handleUndoExpand st =
          { steps := prev, history := st.history.dropLast, error := st.error } := by
        simp only [handleUndoExpand, hl]
      unfold UndoP at hp ⊢
      rw [hu]
      have hlen : st.history.length = st.history.dropLast.length + 1 := by
        rw [List.length_dropLast]
        have : 0 < st.history.length := List.length_pos.mpr hne
        omega
      rw [hlen, Function.iterate_succ_apply, hu] at hp
      exact hp

theorem undoP_run (es : List ExpandEvent) : UndoP (runExpand es) := by
  have hgen : ∀ (l : List ExpandEvent) (st : ExpandState), UndoP st →
      UndoP (l.foldl stepExpand st) := by
    intro l
    induction l with
    | nil => intro st h; exact h
    | cons e l ih =>
      intro st h
      exact ih _ (undoP_step st e h)
  exact hgen es _ (by unfold UndoP; rfl)

/-- C8: an accepted click pushes the pre-click counters and one undo restores
the exact pre-click state; undo with an empty history changes nothing; and
after any event sequence, undoing once per history entry returns the counters
to all zeros. -/
theorem expand_undo_spec (st st2 : ExpandState) (d : Direction)
    (hacc : st.steps.total < 6) (h2 : st2.history = [])
    (es : List ExpandEvent) :
    handleUndoExpand (handleExpandClick d st) = st ∧
    (handleExpandClick d st).history = st.history ++ [st.steps] ∧
    handleUndoExpand st2 = st2 ∧
    (handleUndoExpand^[(runExpand es).history.length] (runExpand es)).steps = Steps.zero := by
  refine ⟨undo_click_accepted d st hacc, ?_, ?_, undoP_run es⟩
  · have hne : ¬ MAX_EXPANSION_CLICKS ≤ st.steps.total := by
      simp only [MAX_EXPANSION_CLICKS]
      omega
    simp only [handleExpandClick, if_neg hne]
  · simp only [handleUndoExpand, h2, List.getLast?_nil]

/-- C8 (witness): the undo laws instantiated on a concrete two-click history. -/
theorem expand_undo_spec_witness :
    handleUndoExpand (handleExpandClick .bottom
      ⟨⟨1, 0, 0, 0⟩, [Steps.zero], none⟩) = ⟨⟨1, 0, 0, 0⟩, [Steps.zero], none⟩ ∧
    (handleExpandClick .bottom ⟨⟨1, 0, 0, 0⟩, [Steps.zero], none⟩).history =
      [Steps.zero] ++ [⟨1, 0, 0, 0⟩] ∧
    handleUndoExpand ⟨⟨0, 0, 0, 0⟩, [], none⟩ = ⟨⟨0, 0, 0, 0⟩, [], none⟩ ∧
    (handleUndoExpand^[(runExpand [ExpandEvent.click .top,
        ExpandEvent.click .bottomRight, ExpandEvent.undo]).history.length]
      (runExpand [ExpandEvent.click .top, ExpandEvent.click .bottomRight,
        ExpandEvent.undo])).steps = Steps.zero :=
  expand_undo_spec ⟨⟨1, 0, 0, 0⟩, [Steps.zero], none⟩ ⟨⟨0, 0, 0, 0⟩, [], none⟩
    .bottom (by decide) (by decide)
    [ExpandEvent.click .top, ExpandEvent.click .bottomRight, ExpandEvent.undo]

/-! Claims about the stroke canvas and its export (C2, C4, C10). -/

/-- C2 (code evaluation at the failing input): a tap — pointer-down at a valid
coordinate followed by pointer-up with no movement — paints nothing.
`startDrawing` calls `draw` directly, but `draw` reads the render-time
`isDrawing` closure value, which is still `false` because `setIsDrawing(true)`
is applied only after the handler returns; so no dot is drawn and the
subsequent `getMaskAsBase64` export signals empty, contradicting the claimed
behaviour (and the source comment "Draw a dot on start to handle clicks
without drags"). -/
theorem tap_draws_nothing :
    (startDrawing ⟨false, none, []⟩ true (some ⟨10, 10⟩) 30 1).strokes = [] ∧
    (stopDrawing (startDrawing ⟨false, none, []⟩ true (some ⟨10, 10⟩) 30 1)).strokes
      = [] ∧
    getMaskAsBase64
      (some (rasterizeStrokes
        (stopDrawing (startDrawing ⟨false, none, []⟩ true (some ⟨10, 10⟩) 30 1)).strokes
        4 4)) true true = none := by
  refine ⟨rfl, rfl, ?_⟩
  decide

theorem any_alpha_false_of_all_zero (l : List RGBA) (h : ∀ p ∈ l, p.a = 0) :
    (l.any fun p => 0 < p.a) = false := by
  rw [List.any_eq_false]
  intro p hp
  simp [h p hp]

theorem getMask_empty_of_all_zero (c : DrawCanvas) (h : ∀ p ∈ c.data, p.a = 0)
    (mctx : Bool) : getMaskAsBase64 (some c) true mctx = none := by
  simp only [getMaskAsBase64]
  rw [if_neg (by simp), if_pos (by simp [any_alpha_false_of_all_zero c.data h])]

/-- C4: with the drawing canvas and both contexts available, a successful
`getMaskAsBase64` export has the same dimensions as the drawing canvas and
maps every source pixel with positive alpha to opaque white and every other
pixel to opaque black; a buffer with no positive-alpha pixel yields the empty
signal, and the Next Step handler then rejects it, leaving the finalized
selection (and hence submission readiness) unchanged. -/
theorem mask_export_spec (c m c0 : DrawCanvas)
    (hm : getMaskAsBase64 (some c) true true = some m)
    (h0 : ∀ p ∈ c0.data, p.a = 0) (s : Session) :
    m.width = c.width ∧ m.height = c.height ∧
    m.data = c.data.map (fun p =>
      if 0 < p.a then (⟨255, 255, 255, 255⟩ : RGBA) else ⟨0, 0, 0, 255⟩) ∧
    getMaskAsBase64 (some c0) true true = none ∧
    (nextStepClick (getMaskAsBase64 (some c0) true true) s).finalSelection
      = s.finalSelection ∧
    (nextStepClick (getMaskAsBase64 (some c0) true true) s).isSelectionDone
      = s.isSelectionDone := by
  have hempty := getMask_empty_of_all_zero c0 h0 true
  have hm' : m = ⟨c.width, c.height, c.data.map binarizePixel⟩ := by
    by_cases hmask : (c.data.any fun p => 0 < p.a) = false
    · rw [getMaskAsBase64, if_neg (by simp), if_pos hmask] at hm
      exact absurd hm (by simp)
    · rw [getMaskAsBase64, if_neg (by simp), if_neg hmask, if_neg (by simp)] at hm
      exact (Option.some_injective _ hm).symm
  subst hm'
  refine ⟨rfl, rfl, rfl, hempty, ?_, ?_⟩ <;> rw [hempty] <;> rfl

/-- C4 (witness): the export law on a two-pixel canvas with one painted pixel,
and the empty signal on a fully transparent one-pixel canvas. -/
theorem mask_export_spec_witness :
    (⟨1, 2, [⟨255, 255, 255, 255⟩, ⟨0, 0, 0, 255⟩]⟩ : DrawCanvas).width
      = (⟨1, 2, [⟨0, 0, 0, 128⟩, ⟨9, 9, 9, 0⟩]⟩ : DrawCanvas).width ∧
    (⟨1, 2, [⟨255, 255, 255, 255⟩, ⟨0, 0, 0, 255⟩]⟩ : DrawCanvas).height
      = (⟨1, 2, [⟨0, 0, 0, 128⟩, ⟨9, 9, 9, 0⟩]⟩ : DrawCanvas).height ∧
    (⟨1, 2, [⟨255, 255, 255, 255⟩, ⟨0, 0, 0, 255⟩]⟩ : DrawCanvas).data
      = (⟨1, 2, [⟨0, 0, 0, 128⟩, ⟨9, 9, 9, 0⟩]⟩ : DrawCanvas).data.map (fun p =>
          if 0 < p.a then (⟨255, 255, 255, 255⟩ : RGBA) else ⟨0, 0, 0, 255⟩) ∧
    getMaskAsBase64 (some ⟨1, 1, [⟨5, 5, 5, 0⟩]⟩) true true = none ∧
    (nextStepClick (getMaskAsBase64 (some ⟨1, 1, [⟨5, 5, 5, 0⟩]⟩) true true)
      baseSession).finalSelection = baseSession.finalSelection ∧
    (nextStepClick (getMaskAsBase64 (some ⟨1, 1, [⟨5, 5, 5, 0⟩]⟩) true true)
      baseSession).isSelectionDone = baseSession.isSelectionDone :=
  mask_export_spec ⟨1, 2, [⟨0, 0, 0, 128⟩, ⟨9, 9, 9, 0⟩]⟩
    ⟨1, 2, [⟨255, 255, 255, 255⟩, ⟨0, 0, 0, 255⟩]⟩ ⟨1, 1, [⟨5, 5, 5, 0⟩]⟩
    (by decide) (by decide) baseSession

/-- C10: `getMaskAsBase64` returns the very same empty value for a missing
drawing canvas, for an unavailable 2D context, and for a buffer with no drawn
pixel, so the Next Step caller reacts identically to all three — with the
select-an-area validation message — and never learns of the resource
failure. -/
theorem mask_empty_signal_uniform (c : DrawCanvas) (h0 : ∀ p ∈ c.data, p.a = 0)
    (s : Session) :
    getMaskAsBase64 none true true = none ∧
    getMaskAsBase64 (some c) false true = none ∧
    getMaskAsBase64 (some c) true true = none ∧
    nextStepClick (getMaskAsBase64 none true true) s
      = nextStepClick (getMaskAsBase64 (some c) false true) s ∧
    nextStepClick (getMaskAsBase64 (some c) false true) s
      = nextStepClick (getMaskAsBase64 (some c) true true) s ∧
    (nextStepClick (getMaskAsBase64 none true true) s).error
      = some "Please select an area before proceeding." ∧
    (nextStepClick (getMaskAsBase64 none true true) s).finalSelection
      = s.finalSelection := by
  have hempty := getMask_empty_of_all_zero c h0 true
  have hctx : getMaskAsBase64 (some c) false true = none := by
    simp [getMaskAsBase64]
  refine ⟨rfl, hctx, hempty, ?_, ?_, rfl, rfl⟩
  · rw [hctx]
    rfl
  · rw [hctx, hempty]

/-- C10 (witness): the three failure causes on a concrete transparent canvas. -/
theorem mask_empty_signal_uniform_witness :
    getMaskAsBase64 none true true = none ∧
    getMaskAsBase64 (some ⟨1, 1, [⟨7, 7, 7, 0⟩]⟩) false true = none ∧
    getMaskAsBase64 (some ⟨1, 1, [⟨7, 7, 7, 0⟩]⟩) true true = none ∧
    nextStepClick (getMaskAsBase64 none true true) baseSession
      = nextStepClick (getMaskAsBase64 (some ⟨1, 1, [⟨7, 7, 7, 0⟩]⟩) false true)
          baseSession ∧
    nextStepClick (getMaskAsBase64 (some ⟨1, 1, [⟨7, 7, 7, 0⟩]⟩) false true)
        baseSession
      = nextStepClick (getMaskAsBase64 (some ⟨1, 1, [⟨7, 7, 7, 0⟩]⟩) true true)
          baseSession ∧
    (nextStepClick (getMaskAsBase64 none true true) baseSession).error
      = some "Please select an area before proceeding." ∧
    (nextStepClick (getMaskAsBase64 none true true) baseSession).finalSelection
      = baseSession.finalSelection :=
  mask_empty_signal_uniform ⟨1, 1, [⟨7, 7, 7, 0⟩]⟩ (by decide) baseSession

/-! Claim about the expansion composite canvas (C5). -/

/-- C5: the canvas built by `handleExpandSubmit` has width
`originalWidth + (left+right)*step` and height
`originalHeight + (top+bottom)*step`; before the image is drawn every pixel
holds the sentinel gray `#808080`; in the final composite the original image
appears pixel-for-pixel at offset `(left*step, top*step)` and every pixel
outside that region holds the sentinel gray. -/
theorem expansion_canvas_spec (orig : Img) (steps : Steps) (stepSize : Nat)
    (x y u v a b : Nat) (hx : x < orig.width) (hy : y < orig.height)
    (hu : u < orig.width + (steps.left + steps.right) * stepSize)
    (hv : v < orig.height + (steps.top + steps.bottom) * stepSize)
    (hout : u < steps.left * stepSize ∨ steps.left * stepSize + orig.width ≤ u
      ∨ v < steps.top * stepSize ∨ steps.top * stepSize + orig.height ≤ v)
    (ha : a < orig.width + (steps.left + steps.right) * stepSize)
    (hb : b < orig.height + (steps.top + steps.bottom) * stepSize) :
    (expandComposite orig steps stepSize).width
      = orig.width + (steps.left + steps.right) * stepSize ∧
    (expandComposite orig steps stepSize).height
      = orig.height + (steps.top + steps.bottom) * stepSize ∧
    (fillRectC (newCanvas (orig.width + (steps.left + steps.right) * stepSize)
        (orig.height + (steps.top + steps.bottom) * stepSize)) sentinelGray 0 0
        (orig.width + (steps.left + steps.right) * stepSize)
        (orig.height + (steps.top + steps.bottom) * stepSize)).pix a b
      = some sentinelGray ∧
    (expandComposite orig steps stepSize).pix
        (steps.left * stepSize + x) (steps.top * stepSize + y)
      = some (orig.pix x y) ∧
    (expandComposite orig steps stepSize).pix u v = some sentinelGray := by
  have hlr : (steps.left + steps.right) * stepSize
      = steps.left * stepSize + steps.right * stepSize := Nat.add_mul _ _ _
  have htb : (steps.top + steps.bottom) * stepSize
      = steps.top * stepSize + steps.bottom * stepSize := Nat.add_mul _ _ _
  refine ⟨rfl, rfl, ?_, ?_, ?_⟩
  · simp only [fillRectC, newCanvas]
    split_ifs with h
    · rfl
    · exact absurd (by omega) h
  · simp only [expandComposite, drawImageNative, fillRectC, newCanvas]
    split_ifs with h1 h2
    · rw [Nat.add_sub_cancel_left, Nat.add_sub_cancel_left]
    · exact absurd (by omega) h1
    · exact absurd (by omega) h1
  · simp only [expandComposite, drawImageNative, fillRectC, newCanvas]
    split_ifs with h1 h2
    · exact absurd h1 (by omega)
    · rfl
    · exact absurd (by omega) h2

/-- C5 (witness): the canvas laws on a 2x2 image expanded one step left and
one step down with step size 3. -/
theorem expansion_canvas_spec_witness :
    (expandComposite ⟨2, 2, fun i j => ⟨i, j, 0⟩⟩ ⟨0, 0, 1, 1⟩ 3).width
      = 2 + (1 + 0) * 3 ∧
    (expandComposite ⟨2, 2, fun i j => ⟨i, j, 0⟩⟩ ⟨0, 0, 1, 1⟩ 3).height
      = 2 + (0 + 1) * 3 ∧
    (fillRectC (newCanvas (2 + (1 + 0) * 3) (2 + (0 + 1) * 3)) sentinelGray 0 0
        (2 + (1 + 0) * 3) (2 + (0 + 1) * 3)).pix 4 4 = some sentinelGray ∧
    (expandComposite ⟨2, 2, fun i j => ⟨i, j, 0⟩⟩ ⟨0, 0, 1, 1⟩ 3).pix
        (1 * 3 + 1) (0 * 3 + 0)
      = some ((⟨2, 2, fun i j => ⟨i, j, 0⟩⟩ : Img).pix 1 0) ∧
    (expandComposite ⟨2, 2, fun i j => ⟨i, j, 0⟩⟩ ⟨0, 0, 1, 1⟩ 3).pix 0 0
      = some sentinelGray :=
  expansion_canvas_spec ⟨2, 2, fun i j => ⟨i, j, 0⟩⟩ ⟨0, 0, 1, 1⟩ 3
    1 0 0 0 4 4 (by decide) (by decide) (by decide) (by decide)
    (by decide) (by decide) (by decide)

/-! Claim about crop finalisation (C6). -/

/-- C6 (counterexample): on a 500-pixel-wide image displayed at 400 pixels
(scale 5/4) a 10 x 10 display-pixel crop produces a 12 x 12 image, because the
`canvas.width` assignment truncates `12.5`; the claimed `round` formula gives
`13`.  The claim that produced dimensions equal `round(displayRect *
nativeScale)` is therefore false of `handleApplyCrop`. -/
theorem crop_dims_counterexample :
    handleApplyCrop 500 500 400 400 (some ⟨0, 0, 10, 10⟩) = some (12, 12) ∧
    round ((10 : ℚ) * (500 / 400)) = 13 := by
  constructor
  · have harg : ((⟨0, 0, 10, 10⟩ : CropRect).width) * ((500 : ℚ) / 400) = 25 / 2 := by
      norm_num
    have hval : toUnsignedLong (25 / 2) = 12 := by
      rw [toUnsignedLong, truncTowardZero, if_pos (by norm_num)]
      norm_num
      rfl
    simp only [handleApplyCrop]
    rw [if_neg (by norm_num), harg, hval]
  · norm_num [round_eq]

/-- C6 (amended): a finished drag whose rectangle is below 5 display pixels in
either dimension discards the selection, so no image is produced; a rectangle
at least 5 pixels on both axes survives, and applying it produces an image
whose dimensions are `displayRect * nativeScale` per axis truncated toward
zero (the WebIDL `unsigned long` conversion), not rounded. -/
theorem crop_dims_amended (naturalW naturalH clientW clientH : ℚ)
    (c c2 : CropRect) (hW : 5 ≤ c.width) (hH : 5 ≤ c.height)
    (h2 : c2.width < 5 ∨ c2.height < 5) :
    handleCropDragEnd true (some c) = (false, some c) ∧
    handleCropDragEnd true (some c2) = (false, none) ∧
    handleApplyCrop naturalW naturalH clientW clientH none = none ∧
    handleApplyCrop naturalW naturalH clientW clientH (some c)
      = some (toUnsignedLong (c.width * (naturalW / clientW)),
              toUnsignedLong (c.height * (naturalH / clientH))) := by
  refine ⟨?_, ?_, rfl, ?_⟩
  · simp only [handleCropDragEnd]
    rw [if_neg (by simp), if_neg (by push_neg; constructor <;> linarith)]
  · simp only [handleCropDragEnd]
    rw [if_neg (by simp), if_pos h2]
  · simp only [handleApplyCrop]
    rw [if_neg (by push_neg; constructor <;> intro h <;> linarith)]

/-- C6 (witness): the amended law on the 500/400 configuration with a 10 x 10
crop and a discarded 4 x 10 crop. -/
theorem crop_dims_amended_witness :
    handleCropDragEnd true (some ⟨0, 0, 10, 10⟩) = (false, some ⟨0, 0, 10, 10⟩) ∧
    handleCropDragEnd true (some ⟨0, 0, 4, 10⟩) = (false, none) ∧
    handleApplyCrop 500 500 400 400 none = none ∧
    handleApplyCrop 500 500 400 400 (some ⟨0, 0, 10, 10⟩)
      = some (toUnsignedLong ((10 : ℚ) * (500 / 400)),
              toUnsignedLong ((10 : ℚ) * (500 / 400))) :=
  crop_dims_amended 500 500 400 400 ⟨0, 0, 10, 10⟩ ⟨0, 0, 4, 10⟩
    (by decide) (by decide) (by decide)

/-! Claim about submission failure (C7). -/

theorem handleExpandSubmit_error_eq (s : Session) (msg : String)
    (hoi : s.originalImage ≠ none) :
    handleExpandSubmit (Except.error msg) true s =
      { s with error := some msg
             , appState := AppState.EXPANDING
             , loadingMessage := "Expanding your canvas..." } := by
  simp only [handleExpandSubmit]
  rw [if_neg hoi]
  rfl

theorem handleEditSubmit_error_magicFill (s : Session) (msg : String)
    (hoi : s.originalImage ≠ none) (htool : s.tool = some Tool.magicFill)
    (hsel : s.finalSelection ≠ none) (hprompt : s.prompt ≠ "") :
    handleEditSubmit (Except.error msg) true true s =
      { s with error := some msg
             , appState := AppState.EDITING
             , loadingMessage := "Applying AI magic..." } := by
  simp only [handleEditSubmit]
  rw [if_neg (by simp [hoi, htool]), if_neg (by simp [htool]),
    if_neg (by simp [hsel]), if_pos htool, if_neg hprompt, if_neg hsel]

theorem handleEditSubmit_error_insert (s : Session) (msg : String)
    (hoi : s.originalImage ≠ none) (htool : s.tool = some Tool.insert)
    (hins : s.insertImage ≠ none) :
    handleEditSubmit (Except.error msg) true true s =
      { s with error := some msg
             , appState := AppState.EDITING
             , loadingMessage := "Blending image..." } := by
  simp only [handleEditSubmit]
  rw [if_neg (by simp [hoi, htool]), if_neg (by simp [htool]),
    if_neg (by simp [htool]), if_neg (by simp [htool]), if_neg hins]
  rfl

/-- C7: when the external generation call fails, a Magic Fill or Insert
submission returns to `EDITING` and an Expand submission returns to
`EXPANDING` — the exact pre-submission phase, never `TOOL_SELECTION` — and the
prompt, finalized mask selection, placement transform, inserted object and
expansion steps (with their history) are all left unchanged. -/
theorem failure_reverts_spec (s1 s2 s3 : Session) (msg : String)
    (h1a : s1.appState = AppState.EXPANDING) (h1b : s1.originalImage ≠ none)
    (h2a : s2.appState = AppState.EDITING) (h2b : s2.tool = some Tool.magicFill)
    (h2c : s2.finalSelection ≠ none) (h2d : s2.prompt ≠ "")
    (h2e : s2.originalImage ≠ none)
    (h3a : s3.appState = AppState.EDITING) (h3b : s3.tool = some Tool.insert)
    (h3c : s3.insertImage ≠ none) (h3d : s3.originalImage ≠ none) :
    (handleExpandSubmit (Except.error msg) true s1).appState = s1.appState ∧
    (handleExpandSubmit (Except.error msg) true s1).appState
      ≠ AppState.TOOL_SELECTION ∧
    (handleExpandSubmit (Except.error msg) true s1).prompt = s1.prompt ∧
    (handleExpandSubmit (Except.error msg) true s1).expandSteps = s1.expandSteps ∧
    (handleExpandSubmit (Except.error msg) true s1).expandHistory
      = s1.expandHistory ∧
    (handleExpandSubmit (Except.error msg) true s1).originalImage
      = s1.originalImage ∧
    (handleExpandSubmit (Except.error msg) true s1).finalSelection
      = s1.finalSelection ∧
    (handleExpandSubmit (Except.error msg) true s1).insertImage = s1.insertImage ∧
    (handleExpandSubmit (Except.error msg) true s1).insertImageTransform
      = s1.insertImageTransform ∧
    (handleEditSubmit (Except.error msg) true true s2).appState = s2.appState ∧
    (handleEditSubmit (Except.error msg) true true s2).appState
      ≠ AppState.TOOL_SELECTION ∧
    (handleEditSubmit (Except.error msg) true true s2).prompt = s2.prompt ∧
    (handleEditSubmit (Except.error msg) true true s2).finalSelection
      = s2.finalSelection ∧
    (handleEditSubmit (Except.error msg) true true s2).insertImage
      = s2.insertImage ∧
    (handleEditSubmit (Except.error msg) true true s2).insertImageTransform
      = s2.insertImageTransform ∧
    (handleEditSubmit (Except.error msg) true true s2).expandSteps
      = s2.expandSteps ∧
    (handleEditSubmit (Except.error msg) true true s2).expandHistory
      = s2.expandHistory ∧
    (handleEditSubmit (Except.error msg) true true s3).appState = s3.appState ∧
    (handleEditSubmit (Except.error msg) true true s3).appState
      ≠ AppState.TOOL_SELECTION ∧
    (handleEditSubmit (Except.error msg) true true s3).prompt = s3.prompt ∧
    (handleEditSubmit (Except.error msg) true true s3).finalSelection
      = s3.finalSelection ∧
    (handleEditSubmit (Except.error msg) true true s3).insertImage
      = s3.insertImage ∧
    (handleEditSubmit (Except.error msg) true true s3).insertImageTransform
      = s3.insertImageTransform ∧
    (handleEditSubmit (Except.error msg) true true s3).expandSteps
      = s3.expandSteps ∧
    (handleEditSubmit (Except.error msg) true true s3).expandHistory
      = s3.expandHistory := by
  rw [handleExpandSubmit_error_eq s1 msg h1b,
    handleEditSubmit_error_magicFill s2 msg h2e h2b h2c h2d,
    handleEditSubmit_error_insert s3 msg h3d h3b h3c]
  refine ⟨h1a.symm, by simp, rfl, rfl, rfl, rfl, rfl, rfl, rfl,
    h2a.symm, by simp, rfl, rfl, rfl, rfl, rfl, rfl,
    h3a.symm, by simp, rfl, rfl, rfl, rfl, rfl, rfl⟩




/-- C7 (witness): the revert law on three concrete failing submissions. -/
theorem failure_reverts_spec_witness :
    (handleExpandSubmit (Except.error "boom") true expandingSession).appState
      = expandingSession.appState ∧
    (handleExpandSubmit (Except.error "boom") true expandingSession).appState
      ≠ AppState.TOOL_SELECTION ∧
    (handleExpandSubmit (Except.error "boom") true expandingSession).prompt
      = expandingSession.prompt ∧
    (handleExpandSubmit (Except.error "boom") true expandingSession).expandSteps
      = expandingSession.expandSteps ∧
    (handleExpandSubmit (Except.error "boom") true expandingSession).expandHistory
      = expandingSession.expandHistory ∧
    (handleExpandSubmit (Except.error "boom") true expandingSession).originalImage
      = expandingSession.originalImage ∧
    (handleExpandSubmit (Except.error "boom") true expandingSession).finalSelection
      = expandingSession.finalSelection ∧
    (handleExpandSubmit (Except.error "boom") true expandingSession).insertImage
      = expandingSession.insertImage ∧
    (handleExpandSubmit (Except.error "boom") true
      expandingSession).insertImageTransform
      = expandingSession.insertImageTransform ∧
    (handleEditSubmit (Except.error "boom") true true magicFillSession).appState
      = magicFillSession.appState ∧
    (handleEditSubmit (Except.error "boom") true true magicFillSession).appState
      ≠ AppState.TOOL_SELECTION ∧
    (handleEditSubmit (Except.error "boom") true true magicFillSession).prompt
      = magicFillSession.prompt ∧
    (handleEditSubmit (Except.error "boom") true true
      magicFillSession).finalSelection = magicFillSession.finalSelection ∧
    (handleEditSubmit (Except.error "boom") true true magicFillSession).insertImage
      = magicFillSession.insertImage ∧
    (handleEditSubmit (Except.error "boom") true true
      magicFillSession).insertImageTransform
      = magicFillSession.insertImageTransform ∧
    (handleEditSubmit (Except.error "boom") true true magicFillSession).expandSteps
      = magicFillSession.expandSteps ∧
    (handleEditSubmit (Except.error "boom") true true
      magicFillSession).expandHistory = magicFillSession.expandHistory ∧
    (handleEditSubmit (Except.error "boom") true true insertSession).appState
      = insertSession.appState ∧
    (handleEditSubmit (Except.error "boom") true true insertSession).appState
      ≠ AppState.TOOL_SELECTION ∧
    (handleEditSubmit (Except.error "boom") true true insertSession).prompt
      = insertSession.prompt ∧
    (handleEditSubmit (Except.error "boom") true true insertSession).finalSelection
      = insertSession.finalSelection ∧
    (handleEditSubmit (Except.error "boom") true true insertSession).insertImage
      = insertSession.insertImage ∧
    (handleEditSubmit (Except.error "boom") true true
      insertSession).insertImageTransform = insertSession.insertImageTransform ∧
    (handleEditSubmit (Except.error "boom") true true insertSession).expandSteps
      = insertSession.expandSteps ∧
    (handleEditSubmit (Except.error "boom") true true insertSession).expandHistory
      = insertSession.expandHistory :=
  failure_reverts_spec expandingSession magicFillSession insertSession "boom"
    (by decide) (by decide) (by decide) (by decide) (by decide) (by decide)
    (by decide) (by decide) (by decide) (by decide) (by decide)

/-! Claim about the crop snapshot and restore (C9). -/

theorem handleStartCropping_snapshot_kept (st : Session) (u : OrigImage)
    (hu : st.uncroppedOriginalImage = some u) :
    handleStartCropping st = { st with isCropping := true } := by
  have hcond : ¬ (st.uncroppedOriginalImage = none ∧ st.originalImage ≠ none) := by
    rw [hu]
    simp
  simp only [handleStartCropping, if_neg hcond]

theorem handleStartCropping_snapshot_new (st : Session)
    (h0 : st.uncroppedOriginalImage = none) (ho : st.originalImage ≠ none) :
    handleStartCropping st =
      { st with uncroppedOriginalImage := st.originalImage
              , isCropping := true } := by
  simp only [handleStartCropping, if_pos (And.intro h0 ho)]

theorem cropCycle_preserves_snapshot (st : Session) (im u : OrigImage)
    (hu : st.uncroppedOriginalImage = some u) :
    (cropCycle st im).uncroppedOriginalImage = some u := by
  show (handleSaveCrop true im (handleStartCropping st)).uncroppedOriginalImage
    = some u
  rw [handleStartCropping_snapshot_kept st u hu]
  exact hu

theorem foldl_cropCycle_snapshot (imgs : List OrigImage) (st : Session)
    (u : OrigImage) (hu : st.uncroppedOriginalImage = some u) :
    (imgs.foldl cropCycle st).uncroppedOriginalImage = some u := by
  induction imgs generalizing st with
  | nil => exact hu
  | cons im imgs ih => exact ih _ (cropCycle_preserves_snapshot st im u hu)

theorem handleRestoreOriginal_fields (s : Session) (u : OrigImage)
    (hu : s.uncroppedOriginalImage = some u) :
    (handleRestoreOriginal s).originalImage = some u ∧
    (handleRestoreOriginal s).uncroppedOriginalImage = none ∧
    (handleRestoreOriginal s).isSelectionDone = false ∧
    (handleRestoreOriginal s).finalSelection = none ∧
    (handleRestoreOriginal s).isCropping = false ∧
    (handleRestoreOriginal s).editorCanvas = clearMaskCanvas s.editorCanvas := by
  simp only [handleRestoreOriginal, hu]
  simp

theorem clearMaskCanvas_transparent (c : Option DrawCanvas) (dc : DrawCanvas)
    (h : clearMaskCanvas c = some dc) : ∀ p ∈ dc.data, p.a = 0 := by
  cases c with
  | none => exact absurd h (by simp [clearMaskCanvas])
  | some c0 =>
    intro p hp
    have hdc : dc = ⟨c0.width, c0.height, c0.data.map fun _ => ⟨0, 0, 0, 0⟩⟩ := by
      simpa [clearMaskCanvas] using h.symm
    subst hdc
    simp only [List.mem_map] at hp
    obtain ⟨q, _, hq⟩ := hp
    rw [← hq]

/-- C9: entering crop mode snapshots the working image only when no snapshot
exists, so after any nonempty run of successive crops without restoring,
"Restore Original" brings back the image from before the first crop; the
restore consumes the snapshot, clears the finalized-selection state and leaves
the editor mask canvas fully transparent. -/
theorem crop_restore_spec (s t : Session) (u img0 : OrigImage)
    (hu : t.uncroppedOriginalImage = some u)
    (h0 : s.uncroppedOriginalImage = none) (hs : s.originalImage = some img0)
    (imgs : List OrigImage) (hne : imgs ≠ []) :
    (handleStartCropping t).uncroppedOriginalImage = some u ∧
    (handleRestoreOriginal (imgs.foldl cropCycle s)).originalImage = some img0 ∧
    (handleRestoreOriginal (imgs.foldl cropCycle s)).uncroppedOriginalImage
      = none ∧
    (handleRestoreOriginal (imgs.foldl cropCycle s)).isSelectionDone = false ∧
    (handleRestoreOriginal (imgs.foldl cropCycle s)).finalSelection = none ∧
    (handleRestoreOriginal (imgs.foldl cropCycle s)).isCropping = false ∧
    (∀ dc, (handleRestoreOriginal (imgs.foldl cropCycle s)).editorCanvas
      = some dc → ∀ p ∈ dc.data, p.a = 0) := by
  obtain ⟨im, rest, rfl⟩ : ∃ im rest, imgs = im :: rest := by
    cases imgs with
    | nil => exact absurd rfl hne
    | cons im rest => exact ⟨im, rest, rfl⟩
  have hfirst : (cropCycle s im).uncroppedOriginalImage = some img0 := by
    show (handleSaveCrop true im (handleStartCropping s)).uncroppedOriginalImage
      = some img0
    rw [handleStartCropping_snapshot_new s h0 (by rw [hs]; simp)]
    exact hs
  have hsnap : ((im :: rest).foldl cropCycle s).uncroppedOriginalImage
      = some img0 := by
    rw [List.foldl_cons]
    exact foldl_cropCycle_snapshot rest _ img0 hfirst
  obtain ⟨f1, f2, f3, f4, f5, f6⟩ := handleRestoreOriginal_fields _ img0 hsnap
  refine ⟨?_, f1, f2, f3, f4, f5, ?_⟩
  · rw [handleStartCropping_snapshot_kept t u hu]
    exact hu
  · intro dc hdc p hp
    rw [f6] at hdc
    exact clearMaskCanvas_transparent _ dc hdc p hp


/-- C9 (witness): the snapshot and restore laws across two successive crops of
a concrete session. -/
theorem crop_restore_spec_witness :
    (handleStartCropping snapshotSession).uncroppedOriginalImage
      = some ⟨"img", "image/png", 800, 600⟩ ∧
    (handleRestoreOriginal ([⟨"c1", "image/png", 400, 300⟩,
        ⟨"c2", "image/png", 200, 150⟩].foldl cropCycle baseSession)).originalImage
      = some ⟨"img", "image/png", 800, 600⟩ ∧
    (handleRestoreOriginal ([⟨"c1", "image/png", 400, 300⟩,
        ⟨"c2", "image/png", 200, 150⟩].foldl cropCycle
        baseSession)).uncroppedOriginalImage = none ∧
    (handleRestoreOriginal ([⟨"c1", "image/png", 400, 300⟩,
        ⟨"c2", "image/png", 200, 150⟩].foldl cropCycle
        baseSession)).isSelectionDone = false ∧
    (handleRestoreOriginal ([⟨"c1", "image/png", 400, 300⟩,
        ⟨"c2", "image/png", 200, 150⟩].foldl cropCycle
        baseSession)).finalSelection = none ∧
    (handleRestoreOriginal ([⟨"c1", "image/png", 400, 300⟩,
        ⟨"c2", "image/png", 200, 150⟩].foldl cropCycle
        baseSession)).isCropping = false ∧
    (∀ dc, (handleRestoreOriginal ([⟨"c1", "image/png", 400, 300⟩,
        ⟨"c2", "image/png", 200, 150⟩].foldl cropCycle
        baseSession)).editorCanvas = some dc → ∀ p ∈ dc.data, p.a = 0) :=
  crop_restore_spec baseSession snapshotSession ⟨"img", "image/png", 800, 600⟩
    ⟨"img", "image/png", 800, 600⟩ (by decide) (by decide) (by decide)
    [⟨"c1", "image/png", 400, 300⟩, ⟨"c2", "image/png", 200, 150⟩] (by decide)

/-! Claim about the insert-placement transform (C3). -/

theorem placementMap_det (t : ImageTransform)
    (cx sx cy sy cz sz imgW imgH cw ch : ℚ) :
    (placementMap t cx sx cy sy cz sz imgW imgH cw ch).det
      = (t.scale / 100) ^ 2 * (cx * cy * (cz ^ 2 + sz ^ 2)) := by
  simp only [placementMap, flatten2D, buildTransformMatrix, Affine3.idt,
    Affine3.translateSelf, Affine3.rotateSelf, Affine3.scaleSelf, Affine3.post,
    rotAxisX, rotAxisY, rotAxisZ, Mat3.idm, Mat3.mul, Mat3.mulVec, Affine2.det]
  ring

theorem Affine2.inv_apply_apply (T : Affine2) (h : T.det ≠ 0) (p : ℚ × ℚ) :
    T.inv.apply (T.apply p) = p := by
  obtain ⟨p1, p2⟩ := p
  have hd : T.a * T.d - T.b * T.c ≠ 0 := h
  simp only [Affine2.inv, Affine2.apply, Affine2.det]
  rw [Prod.mk.injEq]
  constructor
  · field_simp
    ring
  · field_simp
    ring

/-- An affine function of two variables attains its bounds on an axis-aligned
rectangle at the rectangle's corners. -/
theorem affine_on_rect_bound (A B k w h lo hi p1 p2 : ℚ)
    (h00l : lo ≤ k) (h00u : k ≤ hi)
    (h10l : lo ≤ A * w + k) (h10u : A * w + k ≤ hi)
    (h01l : lo ≤ B * h + k) (h01u : B * h + k ≤ hi)
    (h11l : lo ≤ A * w + B * h + k) (h11u : A * w + B * h + k ≤ hi)
    (hp1 : 0 ≤ p1) (hp1w : p1 ≤ w) (hp2 : 0 ≤ p2) (hp2h : p2 ≤ h) :
    lo ≤ A * p1 + B * p2 + k ∧ A * p1 + B * p2 + k ≤ hi := by
  constructor
  · rcases le_total 0 A with hA | hA <;> rcases le_total 0 B with hB | hB
    · nlinarith [mul_nonneg hA hp1, mul_nonneg hB hp2]
    · nlinarith [mul_nonneg hA hp1,
        mul_nonneg (neg_nonneg.mpr hB) (sub_nonneg.mpr hp2h)]
    · nlinarith [mul_nonneg (neg_nonneg.mpr hA) (sub_nonneg.mpr hp1w),
        mul_nonneg hB hp2]
    · nlinarith [mul_nonneg (neg_nonneg.mpr hA) (sub_nonneg.mpr hp1w),
        mul_nonneg (neg_nonneg.mpr hB) (sub_nonneg.mpr hp2h)]
  · rcases le_total 0 A with hA | hA <;> rcases le_total 0 B with hB | hB
    · nlinarith [mul_nonneg hA (sub_nonneg.mpr hp1w),
        mul_nonneg hB (sub_nonneg.mpr hp2h)]
    · nlinarith [mul_nonneg hA (sub_nonneg.mpr hp1w),
        mul_nonneg (neg_nonneg.mpr hB) hp2]
    · nlinarith [mul_nonneg (neg_nonneg.mpr hA) hp1,
        mul_nonneg hB (sub_nonneg.mpr hp2h)]
    · nlinarith [mul_nonneg (neg_nonneg.mpr hA) hp1,
        mul_nonneg (neg_nonneg.mpr hB) hp2]

/-- If the four transformed corners of the object rectangle land on the
canvas, so does the whole transformed rectangle. -/
theorem apply_mem_box (T : Affine2) (imgW imgH cw ch : ℚ)
    (hc00 : inRect cw ch (T.apply (0, 0)))
    (hc10 : inRect cw ch (T.apply (imgW, 0)))
    (hc01 : inRect cw ch (T.apply (0, imgH)))
    (hc11 : inRect cw ch (T.apply (imgW, imgH)))
    (p : ℚ × ℚ) (hp : inRect imgW imgH p) :
    inRect cw ch (T.apply p) := by
  obtain ⟨p1, p2⟩ := p
  obtain ⟨hp1, hp1w, hp2, hp2h⟩ := hp
  simp only [Affine2.apply, inRect, mul_zero, zero_add, add_zero] at *
  obtain ⟨e1, e2, f1, f2⟩ := hc00
  obtain ⟨a1, a2, b1, b2⟩ := hc10
  obtain ⟨c1, c2, d1, d2⟩ := hc01
  obtain ⟨x1, x2, y1, y2⟩ := hc11
  obtain ⟨g1, g2⟩ := affine_on_rect_bound T.a T.c T.e imgW imgH 0 cw p1 p2
    e1 e2 a1 a2 c1 c2 x1 x2 hp1 hp1w hp2 hp2h
  obtain ⟨g3, g4⟩ := affine_on_rect_bound T.b T.d T.f imgW imgH 0 ch p1 p2
    f1 f2 b1 b2 d1 d2 y1 y2 hp1 hp1w hp2 hp2h
  exact ⟨g1, g2, g3, g4⟩

/-- C3 (counterexample): two in-range placements falsify the claim as stated.
With vertical tilt 90 degrees (cosine 0, in the claimed range [-90, 90]) the
flattened 2D transform collapses the object rectangle onto a line — two
distinct points of the 50 x 50 object map to the same mask pixel — so no
inverse transform can recover the native bounding box.  And with the object
centred at position (0, 0) most of its transformed rectangle falls off the
canvas, so the mask's (clipped) white region inverse-transforms to a proper
subset of the bounding box, not all of it. -/
theorem transform_mask_counterexample :
    (¬ ∃ g : ℚ × ℚ → ℚ × ℚ, ∀ p, inRect 50 50 p →
        g ((placementMap ⟨50, 50, 100, 0, 100, 1000, 90, 0⟩ 0 1 1 0 1 0
            50 50 800 600).apply p) = p) ∧
    Set.image ((placementMap ⟨0, 0, 100, 0, 100, 1000, 0, 0⟩ 1 0 1 0 1 0
        50 50 800 600).inv.apply)
      (maskWhiteRegion ⟨0, 0, 100, 0, 100, 1000, 0, 0⟩ 1 0 1 0 1 0 50 50 800 600)
      ≠ rectSet 50 50 := by
  constructor
  · rintro ⟨g, hg⟩
    have h1 := hg (25, 0) (by norm_num [inRect])
    have h2 := hg (25, 50) (by norm_num [inRect])
    have heq : (placementMap ⟨50, 50, 100, 0, 100, 1000, 90, 0⟩ 0 1 1 0 1 0
        50 50 800 600).apply (25, 0)
        = (placementMap ⟨50, 50, 100, 0, 100, 1000, 90, 0⟩ 0 1 1 0 1 0
        50 50 800 600).apply (25, 50) := by
      norm_num [placementMap, flatten2D, buildTransformMatrix, Affine3.idt,
        Affine3.translateSelf, Affine3.rotateSelf, Affine3.scaleSelf,
        Affine3.post, rotAxisX, rotAxisY, rotAxisZ, Mat3.idm, Mat3.mul,
        Mat3.mulVec, Affine2.apply]
    rw [heq] at h1
    rw [h1] at h2
    exact absurd h2 (by norm_num)
  · intro heq
    have h00 : ((0 : ℚ), (0 : ℚ)) ∈ rectSet 50 50 := by norm_num [rectSet, inRect]
    rw [← heq] at h00
    obtain ⟨q, hq, hinv⟩ := h00
    have hbox : (0 : ℚ) ≤ q.1 := hq.1.1
    have happ : (placementMap ⟨0, 0, 100, 0, 100, 1000, 0, 0⟩ 1 0 1 0 1 0
        50 50 800 600).inv.apply q = (q.1 + 25, q.2 + 25) := by
      norm_num [placementMap, flatten2D, buildTransformMatrix, Affine3.idt,
        Affine3.translateSelf, Affine3.rotateSelf, Affine3.scaleSelf,
        Affine3.post, rotAxisX, rotAxisY, rotAxisZ, Mat3.idm, Mat3.mul,
        Mat3.mulVec, Affine2.apply, Affine2.inv, Affine2.det]
    rw [happ] at hinv
    have hfst := congrArg Prod.fst hinv
    simp at hfst
    linarith

/-- C3 (amended): the composite and the placement mask are driven by the very
same transform — the object's footprint in the composite equals the mask's
white region for all parameters — and whenever both tilt cosines are nonzero
(tilts strictly inside (-90, 90)), the scale is in [1, 200], the in-plane
rotation is genuine (cosine/sine on the unit circle) and the four transformed
corners of the object's bounding box land on the canvas, the flattened
transform is invertible and inverse-transforming the mask's white region
recovers exactly the object's native bounding rectangle. -/
theorem transform_mask_amended (t : ImageTransform)
    (cx sx cy sy cz sz imgW imgH cw ch : ℚ)
    (hunit : cz ^ 2 + sz ^ 2 = 1) (hcx : cx ≠ 0) (hcy : cy ≠ 0)
    (hscale : 1 ≤ t.scale) (hscale2 : t.scale ≤ 200)
    (hc00 : inRect cw ch
      ((placementMap t cx sx cy sy cz sz imgW imgH cw ch).apply (0, 0)))
    (hc10 : inRect cw ch
      ((placementMap t cx sx cy sy cz sz imgW imgH cw ch).apply (imgW, 0)))
    (hc01 : inRect cw ch
      ((placementMap t cx sx cy sy cz sz imgW imgH cw ch).apply (0, imgH)))
    (hc11 : inRect cw ch
      ((placementMap t cx sx cy sy cz sz imgW imgH cw ch).apply (imgW, imgH))) :
    maskWhiteRegion t cx sx cy sy cz sz imgW imgH cw ch
      = compositeObjectFootprint t cx sx cy sy cz sz imgW imgH cw ch ∧
    (placementMap t cx sx cy sy cz sz imgW imgH cw ch).det ≠ 0 ∧
    Set.image ((placementMap t cx sx cy sy cz sz imgW imgH cw ch).inv.apply)
        (maskWhiteRegion t cx sx cy sy cz sz imgW imgH cw ch)
      = rectSet imgW imgH := by
  have hdet : (placementMap t cx sx cy sy cz sz imgW imgH cw ch).det ≠ 0 := by
    rw [placementMap_det, hunit, mul_one]
    have hs0 : t.scale ≠ 0 := by
      intro h
      rw [h] at hscale
      norm_num at hscale
    exact mul_ne_zero (pow_ne_zero _ (div_ne_zero hs0 (by norm_num)))
      (mul_ne_zero hcx hcy)
  have hInv := Affine2.inv_apply_apply _ hdet
  refine ⟨rfl, hdet, ?_⟩
  ext p
  constructor
  · rintro ⟨q, ⟨hqbox, p', hp', hTp'⟩, rfl⟩
    rw [← hTp', hInv p']
    exact hp'
  · intro hp
    exact ⟨(placementMap t cx sx cy sy cz sz imgW imgH cw ch).apply p,
      ⟨apply_mem_box _ imgW imgH cw ch hc00 hc10 hc01 hc11 p hp, p, hp, rfl⟩,
      hInv p⟩

/-- C3 (witness): the amended law on a 50 x 50 object placed at the centre of
an 800 x 600 canvas at scale 100 with no rotation or tilt. -/
theorem transform_mask_amended_witness :
    maskWhiteRegion ⟨50, 50, 100, 0, 100, 1000, 0, 0⟩ 1 0 1 0 1 0 50 50 800 600
      = compositeObjectFootprint ⟨50, 50, 100, 0, 100, 1000, 0, 0⟩
          1 0 1 0 1 0 50 50 800 600 ∧
    (placementMap ⟨50, 50, 100, 0, 100, 1000, 0, 0⟩
      1 0 1 0 1 0 50 50 800 600).det ≠ 0 ∧
    Set.image ((placementMap ⟨50, 50, 100, 0, 100, 1000, 0, 0⟩
        1 0 1 0 1 0 50 50 800 600).inv.apply)
      (maskWhiteRegion ⟨50, 50, 100, 0, 100, 1000, 0, 0⟩ 1 0 1 0 1 0 50 50 800 600)
      = rectSet 50 50 :=
  transform_mask_amended ⟨50, 50, 100, 0, 100, 1000, 0, 0⟩ 1 0 1 0 1 0 50 50 800 600
    (by norm_num) one_ne_zero one_ne_zero (by norm_num) (by norm_num)
    (by norm_num [placementMap, flatten2D, buildTransformMatrix, Affine3.idt,
      Affine3.translateSelf, Affine3.rotateSelf, Affine3.scaleSelf, Affine3.post,
      rotAxisX, rotAxisY, rotAxisZ, Mat3.idm, Mat3.mul, Mat3.mulVec,
      Affine2.apply, inRect])
    (by norm_num [placementMap, flatten2D, buildTransformMatrix, Affine3.idt,
      Affine3.translateSelf, Affine3.rotateSelf, Affine3.scaleSelf, Affine3.post,
      rotAxisX, rotAxisY, rotAxisZ, Mat3.idm, Mat3.mul, Mat3.mulVec,
      Affine2.apply, inRect])
    (by norm_num [placementMap, flatten2D, buildTransformMatrix, Affine3.idt,
      Affine3.translateSelf, Affine3.rotateSelf, Affine3.scaleSelf, Affine3.post,
      rotAxisX, rotAxisY, rotAxisZ, Mat3.idm, Mat3.mul, Mat3.mulVec,
      Affine2.apply, inRect])
    (by norm_num [placementMap, flatten2D, buildTransformMatrix, Affine3.idt,
      Affine3.translateSelf, Affine3.rotateSelf, Affine3.scaleSelf, Affine3.post,
      rotAxisX, rotAxisY, rotAxisZ, Mat3.idm, Mat3.mul, Mat3.mulVec,
      Affine2.apply, inRect])
